import Mathlib

/-!
Shallow embedding of the Luxor9 task-orchestration core
(`packages/frameworks/koog-luxor9-integration`): the reference agent
(`adapters/luxor-intelligence-agent.ts`), the LLM router
(`services/llm-router.ts`), the memory manager (`services/memory-manager.ts`,
shipped here as `src/unnamed/part_004`) and the dispatcher
(`core/luxor9-agent-bus.ts`).

Modelling conventions: JavaScript numbers are embedded as rationals; machine
wall-clock readings (`Date.now() - startTime`, `new Date().toISOString()`)
are passed in as explicit parameters; promises are linearized, with the
behaviour of an external agent promise captured by an `AgentBehavior` value
(resolves / rejects / never settles, the last meaning the timeout timer wins
the `Promise.race`); Redis and PostgreSQL are modelled as association lists
with the exact read/write protocol of the source, and a thrown exception is
an `Except.error` carrying the message.
-/

namespace Luxor9

/-! ## A model of untyped JavaScript values (the `any` payloads) -/

/-- Model of a JavaScript runtime value, for the untyped `content`, `result`
and metadata payloads (`any` in the TypeScript source). -/
inductive JsValue where
  | null
  | undefined
  | bool (b : Bool)
  | num (q : ℚ)
  | str (s : String)
  | arr (elems : List JsValue)
  | obj (fields : List (String × JsValue))

/-- JavaScript truthiness: `undefined`, `null`, `false`, `0`, and the empty
string are falsy; arrays and objects are always truthy. (`NaN` is not
representable in the rational model.) -/
def jsTruthy : JsValue → Bool
  | .null => false
  | .undefined => false
  | .bool b => b
  | .num q => decide (q ≠ 0)
  | .str s => decide (s ≠ "")
  | .arr _ => true
  | .obj _ => true

/-- Property access `v[k]` on a JavaScript value: a present object field is
returned, anything else gives `undefined`. -/
def jsGet (v : JsValue) (k : String) : JsValue :=
  match v with
  | .obj fields =>
    match fields.find? (fun f => f.1 = k) with
    | some f => f.2
    | none => .undefined
  | _ => .undefined

/-- ASCII lower-casing of one character, as `String.prototype.toLowerCase`
acts on the ASCII range (the only range exercised by this code). -/
def jsCharLower (c : Char) : Char :=
  if c.isUpper then Char.ofNat (c.toNat + 32) else c

/-- Character list of `s.toLowerCase()` (ASCII model). -/
def chLower (s : String) : List Char := s.data.map jsCharLower

/-- Whether the second list is a prefix of the first, on characters. -/
def startsWithCh : List Char → List Char → Bool
  | _, [] => true
  | [], _ :: _ => false
  | a :: as, b :: bs => a == b && startsWithCh as bs

/-- Whether the needle occurs contiguously in the haystack, the model of
`String.prototype.includes`. -/
def containsCh : List Char → List Char → Bool
  | [], needle => needle.isEmpty
  | h :: t, needle => startsWithCh (h :: t) needle || containsCh t needle

/-- Model of `haystack.includes(needle)` on strings. -/
def jsIncludes (haystack needle : String) : Bool :=
  containsCh haystack.data needle.data

/-- JSON string quoting: surrounding quotes plus escaping of the quote,
backslash and newline characters (ASCII model of `JSON.stringify` on
strings; other control-character escapes are not exercised here). -/
def jsonQuote (s : String) : String :=
  "\"" ++ String.join (s.data.map (fun c =>
    if c = '"' then "\\\""
    else if c = '\\' then "\\\\"
    else if c = '\n' then "\\n"
    else String.singleton c)) ++ "\""

/-- Rendering of a number for JSON output: integers print without a point;
non-integral rationals are printed as rationals (an ASCII stand-in for the
JavaScript float formatting, which no claim observes). -/
def ratToJson (q : ℚ) : String :=
  if q.den = 1 then toString q.num else toString q

mutual

/-- Model of `JSON.stringify`: `none` models the JavaScript call returning
`undefined` (stringifying `undefined` itself). Object fields whose value is
`undefined` are dropped; array holes serialize as `null`. -/
def jsonStringify? : JsValue → Option String
  | .null => some "null"
  | .undefined => none
  | .bool b => some (if b then "true" else "false")
  | .num q => some (ratToJson q)
  | .str s => some (jsonQuote s)
  | .arr xs => some ("[" ++ String.intercalate "," (jsonArrElems xs) ++ "]")
  | .obj fs => some ("\x7b" ++ String.intercalate "," (jsonObjFields fs) ++ "\x7d")

/-- Serialized elements of a JSON array (an `undefined` element prints as
`null`, as `JSON.stringify` does). -/
def jsonArrElems : List JsValue → List String
  | [] => []
  | x :: xs => ((jsonStringify? x).getD "null") :: jsonArrElems xs

/-- Serialized `key:value` members of a JSON object, dropping fields whose
value is `undefined`. -/
def jsonObjFields : List (String × JsValue) → List String
  | [] => []
  | (k, v) :: fs =>
    match jsonStringify? v with
    | some s => (jsonQuote k ++ ":" ++ s) :: jsonObjFields fs
    | none => jsonObjFields fs

end

/-! ## Data model (`types/index.ts`) -/

/-- Response status union `completed | failed | p-a-r-t-i-a-l | streaming`
from `LuxorAgentResponse`; the constructor `part` stands for the source
string literal spelled p-a-r-t-i-a-l. -/
inductive Status where
  | completed
  | failed
  | part
  | streaming
deriving DecidableEq

/-- Metadata block of `LuxorAgentResponse`. -/
structure Metadata where
  llm_used : String
  tokens_consumed : ℕ
  execution_time_ms : ℕ
  cost : ℚ
deriving DecidableEq

/-- The `LuxorAgentResponse` object. -/
structure Response where
  task_id : String
  status : Status
  result : Option JsValue
  error : Option String
  metadata : Metadata

/-- The `input` field of `LuxorAgentTask`; `type` is kept as a runtime
string so that the switch default branch of the agent is representable. -/
structure TaskInput where
  type : String
  content : JsValue

/-- The `context` field of `LuxorAgentTask`. -/
structure TaskContext where
  conversation_id : Option String
  memory_snapshots : Option (List String)

/-- The `policy` field of `LuxorAgentTask`; `timeout_ms` is an `Option` so
that an absent field is representable (the dispatcher applies
`timeout_ms || 30000`). -/
structure Policy where
  llm_ranking : List String
  max_tokens : ℕ
  timeout_ms : Option ℕ
  cost_budget : ℚ

/-- The `LuxorAgentTask` object. -/
structure Task where
  task_id : String
  agent_id : String
  tenant_id : String
  priority : ℤ
  mode : String
  input : TaskInput
  context : TaskContext
  policy : Policy

/-- The `LLMProvider` descriptor. -/
structure LLMProvider where
  name : String
  endpoint : String
  apiKey : String
  models : List String
  costPerToken : ℚ
  latencyMs : ℚ
  available : Bool

/-! ## Reference agent (`adapters/luxor-intelligence-agent.ts`) -/

/-- Result object built by `LuxorIntelligenceAgent.summarizeContent`. -/
def summarizeContent (content : String) : JsValue :=
  .obj [("type", .str "summary"),
        ("original_length", .num content.length),
        ("summary", .str ("Summary of: " ++ content.take 100 ++ "...")),
        ("key_points", .arr [.str "Key point 1 extracted from content",
                             .str "Key point 2 extracted from content",
                             .str "Key point 3 extracted from content"]),
        ("confidence", .num (mkRat 95 100))]

/-- Result object built by `LuxorIntelligenceAgent.analyzeContent` (the
content argument is unused in the source as well). -/
def analyzeContent (_content : String) : JsValue :=
  .obj [("type", .str "analysis"),
        ("content_type", .str "text"),
        ("sentiment", .str "neutral"),
        ("topics", .arr [.str "topic1", .str "topic2", .str "topic3"]),
        ("entities", .arr []),
        ("complexity_score", .num (mkRat 7 10)),
        ("readability", .str "medium"),
        ("insights", .arr [.str "Insight 1 about the content",
                           .str "Insight 2 about the content"])]

/-- Result object built by `LuxorIntelligenceAgent.generateContent`. -/
def generateContent (content : String) : JsValue :=
  .obj [("type", .str "generation"),
        ("prompt", .str content),
        ("generated_content", .str ("Generated response based on: " ++ content)),
        ("alternatives", .arr [.str "Alternative generation 1",
                               .str "Alternative generation 2"]),
        ("metadata", .obj [("creativity_level", .num (mkRat 8 10)),
                           ("factuality_score", .num (mkRat 9 10))])]

/-- Result object built by `LuxorIntelligenceAgent.generalTextProcessing`;
`nowIso` stands for the `new Date().toISOString()` reading. -/
def generalTextProcessing (nowIso : String) (content : String) : JsValue :=
  .obj [("type", .str "general_processing"),
        ("input_received", .str (content.take 50 ++ "...")),
        ("processing_time", .str nowIso),
        ("result", .str "Processed successfully"),
        ("suggestions", .arr [.str "Consider using more specific instructions",
                              .str "Add context for better results"])]

/-- Model of `LuxorIntelligenceAgent.processTextInput`: keyword routing on
the lower-cased content for string content, a thrown error otherwise. -/
def processTextInput (nowIso : String) (content : JsValue) : Except String JsValue :=
  match content with
  | .str s =>
    let lower : String := ⟨chLower s⟩
    if jsIncludes lower "summarize" then .ok (summarizeContent s)
    else if jsIncludes lower "analyze" then .ok (analyzeContent s)
    else if jsIncludes lower "generate" then .ok (generateContent s)
    else .ok (generalTextProcessing nowIso s)
  | _ => .error "Invalid text input format"

/-- Model of `LuxorIntelligenceAgent.processMultiModalInput`: requires
truthy `content.text` and `content.images`, runs the text branch on
`content.text`, then maps over the images array. A truthy non-array
`content.images` throws (the `TypeError` raised by `.map`). -/
def processMultiModalInput (nowIso : String) (content : JsValue) : Except String JsValue :=
  let text := jsGet content "text"
  let images := jsGet content "images"
  if jsTruthy text && jsTruthy images then
    match processTextInput nowIso text with
    | .error e => .error e
    | .ok textAnalysis =>
      match images with
      | .arr imgs =>
        .ok (.obj [("type", .str "multi-modal-analysis"),
                   ("text_analysis", textAnalysis),
                   ("image_analysis", .arr (imgs.map (fun img =>
                     .obj [("image_url", img),
                           ("analysis", .str "Image processing would be implemented here"),
                           ("detected_objects", .arr []),
                           ("text_extraction", .str "")]))),
                   ("combined_insights", .str "Combined analysis of text and images would be provided here")])
      | _ => .error "content.images.map is not a function"
  else .error "Invalid multi-modal input format"

/-- Model of the JavaScript idiom `o || d` for an optional string: the
default is taken when the value is absent or is the empty string. -/
def jsStrOr (o : Option String) (d : String) : String :=
  match o with
  | some s => if s = "" then d else s
  | none => d

/-- Model of `LuxorIntelligenceAgent.selectLLMFromPolicy`: the first entry
of the ranking, `default-llm` when absent (`llmRanking[0] || default-llm`).
The source comments that a real implementation would coordinate with the
router; this one does not consult provider availability. -/
def selectLLMFromPolicy (llmRanking : List String) : String :=
  jsStrOr llmRanking.head? "default-llm"

/-- Model of `LuxorIntelligenceAgent.estimateTokensUsed`:
`Math.ceil(JSON.stringify(content).length / 4)`. The `none` branch models
the unreachable case where `JSON.stringify` returns `undefined` (the source
would throw there; it is only called on truthy content). -/
def estimateTokensUsed (content : JsValue) : ℕ :=
  match jsonStringify? content with
  | some s => (s.length + 3) / 4
  | none => 0

/-- Cost-per-token table of `LuxorIntelligenceAgent.calculateCost`, with
the `|| 0.01` fallback for unknown providers. -/
def providerCostPerToken (llmProvider : String) : ℚ :=
  match llmProvider with
  | "ollama-local" => mkRat 1 10000
  | "openai-gpt4" => mkRat 3 100
  | "anthropic-claude" => mkRat 15 1000
  | "openrouter" => mkRat 5 1000
  | _ => mkRat 1 100

/-- Model of `LuxorIntelligenceAgent.calculateCost`: estimated tokens times
the per-token cost looked up by provider name. -/
def calculateCost (content : JsValue) (llmProvider : String) : ℚ :=
  (estimateTokensUsed content : ℚ) * providerCostPerToken llmProvider

/-- The throwing part of `LuxorIntelligenceAgent.processTask` (the body of
its `try` block up to the result value): input validation, then the switch
on `input.type` with a throwing default branch. -/
def processTaskCore (nowIso : String) (task : Task) : Except String JsValue :=
  if !(jsTruthy task.input.content) then .error "Invalid task input"
  else
    match task.input.type with
    | "text" => processTextInput nowIso task.input.content
    | "multi-modal" => processMultiModalInput nowIso task.input.content
    | other => .error ("Unsupported input type: " ++ other)

/-- Model of `LuxorIntelligenceAgent.processTask`: wraps the throwing core
in the catch-all that builds a `failed` Response with zero tokens and cost.
`nowIso` models the ISO timestamp reading and `execTime` models the
measured `Date.now() - startTime` span. -/
def processTask (nowIso : String) (execTime : ℕ) (task : Task) : Response :=
  match processTaskCore nowIso task with
  | .ok result =>
    { task_id := task.task_id
      status := .completed
      result := some result
      error := none
      metadata :=
        { llm_used := selectLLMFromPolicy task.policy.llm_ranking
          tokens_consumed := estimateTokensUsed task.input.content
          execution_time_ms := execTime
          cost := calculateCost task.input.content (jsStrOr task.policy.llm_ranking.head? "default") } }
  | .error msg =>
    { task_id := task.task_id
      status := .failed
      result := none
      error := some msg
      metadata :=
        { llm_used := "none"
          tokens_consumed := 0
          execution_time_ms := execTime
          cost := 0 } }

/-! ## LLM router (`services/llm-router.ts`) -/

/-- Model of `this.providers.get(name)` on the router provider map (names
are the unique keys of the map). -/
def getProvider (provs : List LLMProvider) (n : String) : Option LLMProvider :=
  provs.find? (fun p => p.name = n)

/-- The ranked-and-available candidate list of `selectOptimalLLM`:
`policy.llm_ranking.map(name => providers.get(name)).filter(p => p?.available === true)`,
which keeps rank order, drops unknown names and drops unavailable
providers. -/
def availableProviders (provs : List LLMProvider) (ranking : List String) : List LLMProvider :=
  ranking.filterMap (fun n =>
    match getProvider provs n with
    | some p => if p.available then some p else none
    | none => none)

/-- Comparator of `selectByCost`: ascending unit cost
(`(a, b) => a.costPerToken - b.costPerToken`). -/
def costRel (a b : LLMProvider) : Prop := a.costPerToken ≤ b.costPerToken

instance : DecidableRel costRel :=
  fun a b => inferInstanceAs (Decidable (a.costPerToken ≤ b.costPerToken))

/-- Comparator of `selectByLatency`: ascending latency estimate. -/
def latencyRel (a b : LLMProvider) : Prop := a.latencyMs ≤ b.latencyMs

instance : DecidableRel latencyRel :=
  fun a b => inferInstanceAs (Decidable (a.latencyMs ≤ b.latencyMs))

/-- Comparator of `selectByQuality`: descending unit cost (cost is the
quality proxy in the source). -/
def qualityRel (a b : LLMProvider) : Prop := b.costPerToken ≤ a.costPerToken

instance : DecidableRel qualityRel :=
  fun a b => inferInstanceAs (Decidable (b.costPerToken ≤ a.costPerToken))

/-- Model of `LLMRouter.selectByCost`: keep candidates with unit cost within
the budget, sort them ascending by cost and take the first; fall back to the
first candidate when none fits. Returns `none` only on an empty candidate
list (where the source throws; `selectOptimalLLM` guards against it).
JavaScript `Array.prototype.sort` is stable, as is `List.insertionSort`. -/
def selectByCost (provs : List LLMProvider) (budget : ℚ) : Option LLMProvider :=
  match (List.insertionSort costRel (provs.filter (fun p => p.costPerToken ≤ budget))).head? with
  | some p => some p
  | none => provs.head?

/-- Model of `LLMRouter.selectByLatency`: minimum `latencyMs` candidate. -/
def selectByLatency (provs : List LLMProvider) : Option LLMProvider :=
  (List.insertionSort latencyRel provs).head?

/-- Model of `LLMRouter.selectByQuality`: maximum `costPerToken`
candidate. -/
def selectByQuality (provs : List LLMProvider) : Option LLMProvider :=
  (List.insertionSort qualityRel provs).head?

/-- Hybrid score of `LLMRouter.selectByHybrid`:
`costScore * 0.4 + latencyScore * 0.4 + budgetFits * 0.2` where
`costScore = 1 / (cost + 0.001)`, `latencyScore = 1 / (latency + 1)` and
`budgetFits` is `1` within budget and `0.1` otherwise. -/
def hybridScore (pol : Policy) (p : LLMProvider) : ℚ :=
  let costScore : ℚ := 1 / (p.costPerToken + mkRat 1 1000)
  let latencyScore : ℚ := 1 / (p.latencyMs + 1)
  let budgetFits : ℚ := if p.costPerToken ≤ pol.cost_budget then 1 else mkRat 1 10
  costScore * mkRat 4 10 + latencyScore * mkRat 4 10 + budgetFits * mkRat 2 10

/-- Comparator of `selectByHybrid`: descending hybrid score
(`(a, b) => b.score - a.score` on the scored pairs). -/
def hybridRel (pol : Policy) (a b : LLMProvider) : Prop :=
  hybridScore pol b ≤ hybridScore pol a

instance (pol : Policy) : DecidableRel (hybridRel pol) :=
  fun a b => inferInstanceAs (Decidable (hybridScore pol b ≤ hybridScore pol a))

/-- Model of `LLMRouter.selectByHybrid`: score every candidate, sort the
scored pairs descending by score with the stable sort, and take the first.
The scored pairs of the source are fused away: sorting providers by the
score comparator yields the same list of providers. -/
def selectByHybrid (provs : List LLMProvider) (pol : Policy) : Option LLMProvider :=
  (List.insertionSort (hybridRel pol) provs).head?

/-- Model of `LLMRouter.selectOptimalLLM`: build the ranked-and-available
candidate list, throw `No available LLM providers` when it is empty, then
dispatch on the process-wide routing strategy; the default branch takes the
first candidate. Returns the name of the chosen provider. -/
def selectOptimalLLM (provs : List LLMProvider) (routingStrategy : String)
    (pol : Policy) : Except String String :=
  let avail := availableProviders provs pol.llm_ranking
  if avail.isEmpty then .error "No available LLM providers"
  else
    let chosen : Option LLMProvider :=
      match routingStrategy with
      | "cost" => selectByCost avail pol.cost_budget
      | "latency" => selectByLatency avail
      | "quality" => selectByQuality avail
      | "hybrid" => selectByHybrid avail pol
      | _ => avail.head?
    match chosen with
    | some p => .ok p.name
    | none => .error "No valid LLM provider available"

/-! ## Memory manager (`services/memory-manager.ts`, src/unnamed/part_004) -/

/-- Keyed overwrite on an association list, the model of both a Redis `SET`
and a PostgreSQL upsert on the primary key. -/
def insertKV {β : Type} (k : String) (v : β) (m : List (String × β)) : List (String × β) :=
  (k, v) :: m.filter (fun e => e.1 ≠ k)

/-- Keyed lookup on an association list. -/
def lookupKV {β : Type} (k : String) (m : List (String × β)) : Option β :=
  (m.find? (fun e => e.1 = k)).map (fun e => e.2)

/-- A row of the durable `task_results` table. The upsert writes the
literal `unknown` and `default` strings for agent and tenant, an empty object for the
input, and only `output` and `metadata` carry response data; `status` and
`error` have no column. -/
structure TaskResultRow where
  agent_id : String
  tenant_id : String
  input : JsValue
  output : JsValue
  metadata : Metadata

/-- The two storage tiers of the memory manager: the Redis cache keyed by
`task_result:{taskId}` (modelled by the task id, with the JSON round trip of
the Response elided) and the durable `task_results` table keyed by
`task_id`. -/
structure StoreState where
  cache : List (String × Response)
  taskResults : List (String × TaskResultRow)

/-- Model of `response.result || {}` in the durable write: a falsy result
(absent, null, and so on) is stored as the empty object. -/
def jsResultOrEmpty (r : Option JsValue) : JsValue :=
  match r with
  | some v => if jsTruthy v then v else .obj []
  | none => .obj []

/-- Model of `MemoryManager.storeTaskResult`. The Redis `setex` (1 hour TTL)
is awaited first and the PostgreSQL upsert second, inside one `try` whose
`catch` rethrows; `cacheFails` and `pgFails` model the respective awaited
writes rejecting. A cache failure therefore aborts before the durable
upsert is attempted. -/
def storeTaskResult (cacheFails pgFails : Bool) (st : StoreState) (taskId : String)
    (response : Response) : Except String Unit × StoreState :=
  if cacheFails then (.error "redis setex failed", st)
  else
    let st1 : StoreState := { st with cache := insertKV taskId response st.cache }
    if pgFails then (.error "postgres upsert failed", st1)
    else
      let row : TaskResultRow :=
        { agent_id := "unknown"
          tenant_id := "default"
          input := .obj []
          output := jsResultOrEmpty response.result
          metadata := response.metadata }
      (.ok (), { st1 with taskResults := insertKV taskId row st1.taskResults })

/-- Reconstruction of a Response from a durable `task_results` row, as the
PostgreSQL fallback path of `getTaskResult` builds it: the status is the
literal `completed`, there is no error field, and only `output` and
`metadata` come from the row. -/
def responseOfRow (taskId : String) (row : TaskResultRow) : Response :=
  { task_id := taskId
    status := .completed
    result := some row.output
    error := none
    metadata := row.metadata }

/-- Model of `MemoryManager.getTaskResult`: Redis cache first; on a miss,
read the durable row, rebuild a Response, repopulate the cache and return
it; `none` when absent from both tiers. -/
def getTaskResult (st : StoreState) (taskId : String) : Option Response × StoreState :=
  match lookupKV taskId st.cache with
  | some r => (some r, st)
  | none =>
    match lookupKV taskId st.taskResults with
    | some row =>
      let response := responseOfRow taskId row
      (some response, { st with cache := insertKV taskId response st.cache })
    | none => (none, st)

/-- Expiry of the cache entry of one task id, modelling the 3600 second TTL
set by `setex` elapsing (after which only the durable tier answers). -/
def expireCacheKey (taskId : String) (st : StoreState) : StoreState :=
  { st with cache := st.cache.filter (fun e => e.1 ≠ taskId) }

/-- A row of the `conversations` table (participants kept as its JSON
text). -/
structure ConversationRow where
  tenant_id : String
  participants : String

/-- A row of the `conversation_history` table (the serial `id` column is
not modelled; rows append in insertion order). -/
structure HistoryRow where
  conversation_id : String
  task_id : String
  sequence_number : ℕ

/-- The conversation-related tables of the durable store. -/
structure ConvStore where
  conversations : List (String × ConversationRow)
  history : List HistoryRow

/-- Model of the SQL `SELECT COALESCE(MAX(sequence_number), 0) ... WHERE
conversation_id = $1`: the maximum sequence number of the conversation,
`0` when it has no rows. -/
def maxSeq (history : List HistoryRow) (cid : String) : ℕ :=
  ((history.filter (fun h => h.conversation_id = cid)).map
    (fun h => h.sequence_number)).foldr max 0

/-- Model of `MemoryManager.updateConversationHistory`: create the
conversation row if absent (the `ON CONFLICT` branch only touches
`updated_at`), compute the next sequence number as max-plus-one, and append
the history row. -/
def updateConversationHistory (st : ConvStore) (conversationId : String) (task : Task) :
    ConvStore :=
  let convs :=
    match lookupKV conversationId st.conversations with
    | some _ => st.conversations
    | none =>
      insertKV conversationId
        { tenant_id := task.tenant_id
          participants := (jsonStringify? (.arr [.str task.agent_id])).getD "null" }
        st.conversations
  let nextSeq := maxSeq st.history conversationId + 1
  { conversations := convs
    history := st.history ++
      [{ conversation_id := conversationId, task_id := task.task_id, sequence_number := nextSeq }] }

/-- A row of the `vector_embeddings` table. -/
structure EmbeddingRow where
  id : String
  content : String
  vector : List ℚ
  metadata : JsValue
  tenant_id : String

/-- Squared Euclidean distance between two vectors, the monotone image of
the pgvector `<->` operator used in the search query (ordering by it equals
ordering by the metric itself). -/
def dist2 (u v : List ℚ) : ℚ :=
  ((u.zip v).map (fun p => (p.1 - p.2) ^ 2)).sum

/-- Comparator of the `ORDER BY distance` clause: ascending distance to the
query vector. -/
def distRel (q : List ℚ) (a b : EmbeddingRow) : Prop :=
  dist2 q a.vector ≤ dist2 q b.vector

instance (q : List ℚ) : DecidableRel (distRel q) :=
  fun a b => inferInstanceAs (Decidable (dist2 q a.vector ≤ dist2 q b.vector))

/-- Model of `MemoryManager.searchSimilarEmbeddings`: the SQL
`SELECT ... WHERE tenant_id = $2 ORDER BY distance LIMIT $3` over the
embeddings table, with the catch returning the empty list when the query
rejects (`pgFails`). The sort realizes one valid `ORDER BY` output. -/
def searchSimilarEmbeddings (pgFails : Bool) (table : List EmbeddingRow)
    (queryVector : List ℚ) (tenantId : String) (lim : ℕ) : List EmbeddingRow :=
  if pgFails then []
  else
    ((List.insertionSort (distRel queryVector)
      (table.filter (fun r => r.tenant_id = tenantId))).take lim)

/-! ## Dispatcher (`core/luxor9-agent-bus.ts`) -/

/-- Outcome of racing an agent `processTask` promise against the timeout
timer of `executeTaskWithTimeout`: the promise settles first with a value,
settles first with a rejection, or never settles so the timer wins. -/
inductive AgentBehavior where
  | resolves (r : Response)
  | rejects (msg : String)
  | never

/-- The effective deadline of `executeTaskWithTimeout`:
`task.policy.timeout_ms || 30000`, so both an absent and a zero
`timeout_ms` fall back to 30000 ms. -/
def effectiveTimeout (pol : Policy) : ℕ :=
  match pol.timeout_ms with
  | some t => if t = 0 then 30000 else t
  | none => 30000

/-- Model of `executeTaskWithTimeout`: `Promise.race` of the agent call and
a timer that rejects with the timeout message after the effective
deadline. -/
def executeTaskWithTimeout (behavior : AgentBehavior) (pol : Policy) :
    Except String Response :=
  match behavior with
  | .resolves r => .ok r
  | .rejects m => .error m
  | .never => .error ("Task timeout after " ++ toString (effectiveTimeout pol) ++ "ms")

/-- Model of `Luxor9AgentBus.validateTask`: non-empty `task_id` and
`agent_id` (empty strings are falsy), truthy `input.content`, and a
non-empty `llm_ranking`; the first violated check throws. -/
def validateTask (task : Task) : Except String Unit :=
  if task.task_id = "" ∨ task.agent_id = "" then
    .error "Task must have task_id and agent_id"
  else if !(jsTruthy task.input.content) then
    .error "Task must have valid input content"
  else if task.policy.llm_ranking.isEmpty then
    .error "Task must have valid LLM policy"
  else .ok ()

/-- Insert into the active-task map (`activeTasks.set`): a keyed map, so a
present key is not duplicated. -/
def activeInsert (id : String) (act : List String) : List String :=
  if id ∈ act then act else id :: act

/-- Delete from the active-task map (`activeTasks.delete`). -/
def activeDelete (id : String) (act : List String) : List String :=
  act.filter (fun x => x ≠ id)

/-- The collaborators of one `Luxor9AgentBus` instance, as `submitTask`
sees them: the registered agent map (each agent modelled by the behavior of
its `processTask` promise), the router provider registry and process-wide
strategy, the effect of `loadTaskContext` on the task context (it only
merges snapshot data into `task.context` and never throws), and the outcome
of the memory-write step (`storeTaskResult` plus the conversation append),
which may reject. Event emission and metrics recording have no observable
effect here and are not represented. -/
structure BusModel where
  agents : List (String × (Task → AgentBehavior))
  providers : List LLMProvider
  routingStrategy : String
  hydrate : TaskContext → TaskContext
  persistOutcome : Task → Response → Except String Unit

/-- The `loadTaskContext` call site: hydration runs only when
`task.context.memory_snapshots` is set (an empty list is truthy in
JavaScript and still enters the branch), and rewrites only the context. -/
def hydrateTask (bus : BusModel) (task : Task) : Task :=
  match task.context.memory_snapshots with
  | some _ => { task with context := bus.hydrate task.context }
  | none => task

/-- The `try` block of `Luxor9AgentBus.submitTask`, linearized: validate,
look up the agent, hydrate context, ask the router, record the task as
active, race the agent against the deadline, persist. The second component
is the active-task map when the block exits (normally or by throw). -/
def submitPipeline (bus : BusModel) (task : Task) (active0 : List String) :
    Except String Response × List String :=
  match validateTask task with
  | .error e => (.error e, active0)
  | .ok _ =>
    match lookupKV task.agent_id bus.agents with
    | none => (.error ("Agent not found: " ++ task.agent_id), active0)
    | some behave =>
      let task1 := hydrateTask bus task
      match selectOptimalLLM bus.providers bus.routingStrategy task1.policy with
      | .error e => (.error e, active0)
      | .ok _ =>
        let active1 := activeInsert task.task_id active0
        match executeTaskWithTimeout (behave task1) task1.policy with
        | .error e => (.error e, active1)
        | .ok response =>
          match bus.persistOutcome task1 response with
          | .error e => (.error e, active1)
          | .ok _ => (.ok response, active1)

/-- The `failed` Response built by the `catch` block of `submitTask`:
human-readable message, `llm_used` set to `none`, zero tokens and cost, and the
measured `Date.now() - startTime` as the execution time. -/
def mkErrorResponse (task : Task) (elapsedMs : ℕ) (msg : String) : Response :=
  { task_id := task.task_id
    status := .failed
    result := none
    error := some msg
    metadata :=
      { llm_used := "none"
        tokens_consumed := 0
        execution_time_ms := elapsedMs
        cost := 0 } }

/-- Model of `Luxor9AgentBus.submitTask`: run the pipeline; a throw anywhere
is converted by the `catch` into the terminal failed Response, and the
`finally` removes the task id from the active map unconditionally. The
returned pair is the Response given to the caller and the final active-task
map. -/
def submitTask (bus : BusModel) (elapsedMs : ℕ) (task : Task) (active0 : List String) :
    Response × List String :=
  let out := submitPipeline bus task active0
  let finalActive := activeDelete task.task_id out.2
  match out.1 with
  | .ok r => (r, finalActive)
  | .error msg => (mkErrorResponse task elapsedMs msg, finalActive)

/-! ## Shared helper lemmas and concrete fixtures -/

theorem lookupKV_insertKV_self {β : Type} (k : String) (v : β) (m : List (String × β)) :
    lookupKV k (insertKV k v m) = some v := by
  simp [lookupKV, insertKV]

theorem lookupKV_filter_ne {β : Type} (k : String) (m : List (String × β)) :
    lookupKV k (m.filter (fun e => e.1 ≠ k)) = none := by
  induction m with
  | nil => rfl
  | cons e t ih =>
    by_cases h : e.1 = k
    · rw [List.filter_cons_of_neg (by simp [h])]
      exact ih
    · rw [List.filter_cons_of_pos (by simp [h])]
      rw [lookupKV, List.find?_cons_of_neg _ (by simp [h])]
      exact ih

theorem not_mem_activeDelete (id : String) (act : List String) :
    id ∉ activeDelete id act := by
  simp [activeDelete]

/-- The unavailable `local` provider of the spec example scenario. -/
def localProvider : LLMProvider :=
  { name := "local", endpoint := "http://localhost:11434", apiKey := "local-key"
    models := ["llama3"], costPerToken := mkRat 1 10000, latencyMs := 100
    available := false }

/-- The available `gpt4` provider of the spec example scenario
(cost 0.03 per unit). -/
def gpt4Provider : LLMProvider :=
  { name := "gpt4", endpoint := "https://api.openai.example/v1", apiKey := "gpt4-key"
    models := ["gpt-4"], costPerToken := mkRat 3 100, latencyMs := 2000
    available := true }

/-- A fixed ISO timestamp standing in for `new Date().toISOString()` in the
concrete scenarios. -/
def fixedNow : String := "2026-02-03T04:05:06.000Z"

/-- A well-formed text task addressed to a registered agent, used by the
concrete scenarios (conversation c1, ranking only `gpt4`). -/
def simpleTask : Task :=
  { task_id := "t-simple", agent_id := "intel", tenant_id := "tenant-1"
    priority := 1, mode := "sync"
    input := { type := "text", content := .str "hello there" }
    context := { conversation_id := some "c1", memory_snapshots := none }
    policy := { llm_ranking := ["gpt4"], max_tokens := 100
                timeout_ms := some 5000, cost_budget := mkRat 1 2 } }

/-- A text task whose content is a (truthy) number, driving the reference
agent into the thrown `Invalid text input format` branch. -/
def invalidTextTask : Task :=
  { simpleTask with task_id := "t-bad", input := { type := "text", content := .num 5 } }

/-- A well-formed task addressed to an unregistered agent id. -/
def ghostTask : Task :=
  { simpleTask with task_id := "t-ghost", agent_id := "ghost" }

/-! ## Claim theorems -/

/-- C10: for every input task, the reference agent `processTask` is total
(the model returns a `Response`, never an exception), preserves the task id,
ends in `completed` or `failed`, and on failure reports zero tokens, zero
cost and a populated error message. -/
theorem processTask_total_and_safe (nowIso : String) (execTime : ℕ) (task : Task) :
    (processTask nowIso execTime task).task_id = task.task_id ∧
    ((processTask nowIso execTime task).status = .completed ∨
      (processTask nowIso execTime task).status = .failed) ∧
    ((processTask nowIso execTime task).status = .failed →
      (processTask nowIso execTime task).metadata.tokens_consumed = 0 ∧
      (processTask nowIso execTime task).metadata.cost = 0 ∧
      (processTask nowIso execTime task).error.isSome = true) := by
  unfold processTask
  cases processTaskCore nowIso task <;> simp

/-- Witness for C10 at a concrete failing input: a truthy non-string text
payload yields a failed Response with zero tokens and cost and an error. -/
theorem processTask_total_and_safe_witness :
    (processTask fixedNow 7 invalidTextTask).status = .failed ∧
    (processTask fixedNow 7 invalidTextTask).task_id = "t-bad" ∧
    (processTask fixedNow 7 invalidTextTask).metadata.tokens_consumed = 0 ∧
    (processTask fixedNow 7 invalidTextTask).metadata.cost = 0 ∧
    (processTask fixedNow 7 invalidTextTask).error.isSome = true := by
  have h := processTask_total_and_safe fixedNow 7 invalidTextTask
  have hfail : (processTask fixedNow 7 invalidTextTask).status = .failed := rfl
  have h3 := h.2.2 hfail
  exact ⟨hfail, rfl, h3.1, h3.2.1, h3.2.2⟩

/-- C4 counterexample: the claim asks for execution time 0 in the converted
error Response, but the catch block records the measured elapsed
milliseconds; submitting to an unknown agent with 5 ms elapsed yields an
execution time of 5, not 0. -/
theorem submitTask_error_time_not_zero :
    (submitTask ⟨[], [], "cost", id, fun _ _ => .ok ()⟩ 5 ghostTask []).1.status = .failed ∧
    (submitTask ⟨[], [], "cost", id, fun _ _ => .ok ()⟩ 5 ghostTask []).1.metadata.execution_time_ms = 5 ∧
    (5 : ℕ) ≠ 0 := by
  exact ⟨rfl, rfl, by decide⟩

/-- C4 (amended): every error thrown anywhere in the submit pipeline is
converted into a returned Response with status `failed`, the error message,
`llm_used` equal to `none`, zero tokens, zero cost, and with
`execution_time_ms` equal to the measured elapsed time (not necessarily
zero); `submitTask` itself is total and never propagates the exception. -/
theorem submitTask_converts_pipeline_errors (bus : BusModel) (elapsedMs : ℕ)
    (task : Task) (active0 : List String) (msg : String)
    (herr : (submitPipeline bus task active0).1 = .error msg) :
    (submitTask bus elapsedMs task active0).1.status = .failed ∧
    (submitTask bus elapsedMs task active0).1.error = some msg ∧
    (submitTask bus elapsedMs task active0).1.metadata.llm_used = "none" ∧
    (submitTask bus elapsedMs task active0).1.metadata.tokens_consumed = 0 ∧
    (submitTask bus elapsedMs task active0).1.metadata.cost = 0 ∧
    (submitTask bus elapsedMs task active0).1.metadata.execution_time_ms = elapsedMs := by
  simp [submitTask, herr, mkErrorResponse]

/-- Witness for C4 at a concrete input: the unknown-agent error is converted
into a failed Response carrying the message and the elapsed time. -/
theorem submitTask_converts_pipeline_errors_witness :
    (submitTask ⟨[], [], "cost", id, fun _ _ => .ok ()⟩ 9 ghostTask []).1.status = .failed ∧
    (submitTask ⟨[], [], "cost", id, fun _ _ => .ok ()⟩ 9 ghostTask []).1.error =
      some "Agent not found: ghost" ∧
    (submitTask ⟨[], [], "cost", id, fun _ _ => .ok ()⟩ 9 ghostTask []).1.metadata.execution_time_ms = 9 := by
  have h := submitTask_converts_pipeline_errors ⟨[], [], "cost", id, fun _ _ => .ok ()⟩
    9 ghostTask [] "Agent not found: ghost" rfl
  exact ⟨h.1, h.2.1, h.2.2.2.2.2⟩

/-- C9: when the agent promise never settles, `submitTask` returns a failed
Response whose error is the timeout message naming the effective deadline
(`timeout_ms`, defaulting to 30000 when unset), and the task id is absent
from the active-task map afterwards. -/
theorem submitTask_timeout (bus : BusModel) (elapsedMs : ℕ) (task : Task)
    (active0 : List String) (behave : Task → AgentBehavior)
    (hval : validateTask task = .ok ())
    (hag : lookupKV task.agent_id bus.agents = some behave)
    (hnever : behave (hydrateTask bus task) = .never)
    (hsel : ∃ name, selectOptimalLLM bus.providers bus.routingStrategy
      (hydrateTask bus task).policy = .ok name) :
    (submitTask bus elapsedMs task active0).1.status = .failed ∧
    (submitTask bus elapsedMs task active0).1.error =
      some ("Task timeout after " ++ toString (effectiveTimeout task.policy) ++ "ms") ∧
    (task.policy.timeout_ms = none → effectiveTimeout task.policy = 30000) ∧
    task.task_id ∉ (submitTask bus elapsedMs task active0).2 := by
  obtain ⟨name, hsel⟩ := hsel
  have hpol : (hydrateTask bus task).policy = task.policy := by
    unfold hydrateTask
    cases task.context.memory_snapshots <;> rfl
  rw [hpol] at hsel
  refine ⟨?_, ?_, ?_, ?_⟩
  · simp [submitTask, submitPipeline, hval, hag, hsel, hnever, executeTaskWithTimeout,
      mkErrorResponse, hpol]
  · simp [submitTask, submitPipeline, hval, hag, hsel, hnever, executeTaskWithTimeout,
      mkErrorResponse, hpol]
  · intro h
    simp [effectiveTimeout, h]
  · simp only [submitTask]
    cases hout : (submitPipeline bus task active0).1 <;>
      exact not_mem_activeDelete task.task_id _

/-- Witness for C9 at a concrete input: a registered agent that never
settles, one available provider, a 5000 ms policy deadline. -/
theorem submitTask_timeout_witness :
    (submitTask ⟨[("intel", fun _ => .never)], [gpt4Provider], "latency", id,
        fun _ _ => .ok ()⟩ 11 simpleTask []).1.status = .failed ∧
    (submitTask ⟨[("intel", fun _ => .never)], [gpt4Provider], "latency", id,
        fun _ _ => .ok ()⟩ 11 simpleTask []).1.error =
      some "Task timeout after 5000ms" ∧
    "t-simple" ∉ (submitTask ⟨[("intel", fun _ => .never)], [gpt4Provider], "latency", id,
        fun _ _ => .ok ()⟩ 11 simpleTask []).2 := by
  have h := submitTask_timeout ⟨[("intel", fun _ => .never)], [gpt4Provider], "latency", id,
      fun _ _ => .ok ()⟩ 11 simpleTask [] (fun _ => .never) rfl rfl rfl ⟨"gpt4", rfl⟩
  exact ⟨h.1, h.2.1, h.2.2.2⟩

/-- The example-scenario task of the spec: text content starting with
`summarize:`, ranking `["local", "gpt4"]`, 5000 ms deadline, budget 0.5,
100 max tokens. -/
def scenarioTask : Task :=
  { task_id := "t1", agent_id := "intel", tenant_id := "tenant-1"
    priority := 1, mode := "sync"
    input := { type := "text", content := .str "summarize: the quarterly architecture report" }
    context := { conversation_id := none, memory_snapshots := none }
    policy := { llm_ranking := ["local", "gpt4"], max_tokens := 100
                timeout_ms := some 5000, cost_budget := mkRat 5 10 } }

/-- The example-scenario bus: the reference agent registered as `intel`
(its promise resolves with the `processTask` result), a registry where only
`gpt4` is available, the `cost` routing strategy, and a memory layer whose
writes succeed. -/
def scenarioBus : BusModel :=
  { agents := [("intel", fun t => .resolves (processTask fixedNow 3 t))]
    providers := [localProvider, gpt4Provider]
    routingStrategy := "cost"
    hydrate := id
    persistOutcome := fun _ _ => .ok () }

/-- The Response the dispatcher returns for the example scenario. -/
def scenarioResponse : Response := (submitTask scenarioBus 3 scenarioTask []).1

/-- C1 counterexample: in the example scenario the selector does return
`gpt4`, but the completed Response reports `metadata.llm_used = "local"`,
the first ranked name, because the agent builds the metadata from
`llm_ranking[0]` without consulting the router; the claim that
`metadata.llm_used` equals the provider actually used (`gpt4`) is false. -/
theorem scenario_llm_used_is_not_gpt4 :
    selectOptimalLLM scenarioBus.providers "cost" scenarioTask.policy = .ok "gpt4" ∧
    scenarioResponse.status = .completed ∧
    scenarioResponse.metadata.llm_used = "local" ∧
    ("local" : String) ≠ "gpt4" := by
  refine ⟨rfl, rfl, rfl, by decide⟩

/-- C1 (amended): in the example scenario the Selector returns `gpt4`, the
Agent returns a completed Response whose result has `type = "summary"`, and
`metadata.llm_used` is `"local"` — the head of `llm_ranking` — rather than
the provider the Selector chose. -/
theorem scenario_selector_and_summary :
    selectOptimalLLM scenarioBus.providers "cost" scenarioTask.policy = .ok "gpt4" ∧
    scenarioResponse.task_id = "t1" ∧
    scenarioResponse.status = .completed ∧
    jsGet (scenarioResponse.result.getD .undefined) "type" = .str "summary" ∧
    scenarioResponse.metadata.llm_used = "local" := by
  exact ⟨rfl, rfl, rfl, rfl, rfl⟩

/-- A failed Response with an error and no result, for the store
round-trip scenarios. -/
def failedResp : Response :=
  { task_id := "t9", status := .failed, result := none, error := some "agent exploded"
    metadata := { llm_used := "none", tokens_consumed := 0, execution_time_ms := 4, cost := 0 } }

/-- A completed Response with a truthy result and no error. -/
def okResp : Response :=
  { task_id := "t8", status := .completed
    result := some (.obj [("type", .str "summary")])
    error := none
    metadata := { llm_used := "local", tokens_consumed := 12, execution_time_ms := 3
                  cost := mkRat 36 100 } }

/-- An empty two-tier store. -/
def emptyStore : StoreState := { cache := [], taskResults := [] }

/-- The fetch result for `failedResp` after the cache entry has expired, so
the Response is reconstructed from the durable tier. -/
def fetchedAfterExpiry : Option Response :=
  (getTaskResult
    (expireCacheKey "t9" (storeTaskResult false false emptyStore "t9" failedResp).2) "t9").1

/-- C2 counterexample: persist a failed Response, let the cache entry
expire, fetch again: the durable tier reconstructs a Response with status
`completed` and no error, while the persisted Response was `failed` with an
error — the round trip does not return an equal Response from the durable
tier. -/
theorem roundtrip_fails_from_durable_tier :
    fetchedAfterExpiry.map Response.status = some Status.completed ∧
    fetchedAfterExpiry.map Response.error = some none ∧
    failedResp.status = Status.failed ∧
    failedResp.error = some "agent exploded" ∧
    Status.completed ≠ Status.failed := by
  refine ⟨rfl, rfl, rfl, rfl, by decide⟩

/-- C2 (amended): fetch after persist returns exactly the stored Response
while the cache entry lives; once the cache has expired, the durable tier
returns the reconstruction (status `completed`, no error, result defaulted
to the empty object), which equals the stored Response exactly when that
Response was completed, carried a truthy result and no error, and its
`task_id` matches the storage key. -/
theorem persistResult_fetchResult_roundtrip (st : StoreState) (id : String) (r : Response) :
    (getTaskResult (storeTaskResult false false st id r).2 id).1 = some r ∧
    (getTaskResult (expireCacheKey id (storeTaskResult false false st id r).2) id).1 =
      some (responseOfRow id
        { agent_id := "unknown", tenant_id := "default", input := .obj []
          output := jsResultOrEmpty r.result, metadata := r.metadata }) ∧
    (∀ v, r.task_id = id → r.status = .completed → r.error = none → r.result = some v →
      jsTruthy v = true →
      (getTaskResult (expireCacheKey id (storeTaskResult false false st id r).2) id).1 =
        some r) := by
  have hstore : (storeTaskResult false false st id r).2 =
      { cache := insertKV id r st.cache
        taskResults := insertKV id
          { agent_id := "unknown", tenant_id := "default", input := .obj []
            output := jsResultOrEmpty r.result, metadata := r.metadata } st.taskResults } := rfl
  have hdurable : (getTaskResult (expireCacheKey id (storeTaskResult false false st id r).2) id).1 =
      some (responseOfRow id
        { agent_id := "unknown", tenant_id := "default", input := .obj []
          output := jsResultOrEmpty r.result, metadata := r.metadata }) := by
    rw [hstore]
    simp only [getTaskResult, expireCacheKey, lookupKV_filter_ne, lookupKV_insertKV_self]
  refine ⟨?_, hdurable, ?_⟩
  · rw [hstore]
    simp only [getTaskResult, lookupKV_insertKV_self]
  · intro v htid hst herr hres htr
    rw [hdurable]
    obtain ⟨tid, stat, res, err, md⟩ := r
    simp only at htid hst herr hres
    subst htid hst herr hres
    simp [responseOfRow, jsResultOrEmpty, htr]

/-- Witness for C2 at a concrete input: a completed Response with a truthy
result round-trips exactly through both the cache tier and the durable
tier. -/
theorem persistResult_fetchResult_roundtrip_witness :
    (getTaskResult (storeTaskResult false false emptyStore "t8" okResp).2 "t8").1 =
      some okResp ∧
    (getTaskResult
      (expireCacheKey "t8" (storeTaskResult false false emptyStore "t8" okResp).2) "t8").1 =
      some okResp := by
  have h := persistResult_fetchResult_roundtrip emptyStore "t8" okResp
  exact ⟨h.1, h.2.2 (.obj [("type", .str "summary")]) rfl rfl rfl rfl rfl⟩

/-- C3 counterexample: with the cache write rejecting, `storeTaskResult`
rethrows and the durable table still has no row for the task — the durable
upsert was not performed. -/
theorem cache_failure_skips_durable_write :
    (storeTaskResult true false emptyStore "t9" failedResp).1 = .error "redis setex failed" ∧
    lookupKV "t9" (storeTaskResult true false emptyStore "t9" failedResp).2.taskResults =
      none := by
  exact ⟨rfl, rfl⟩

/-- C3 (amended): the cache write and the durable upsert run sequentially
inside one try block, so a cache-write failure rethrows and the durable
upsert is not performed (the table is unchanged); only when the cache write
succeeds is the durable row written. -/
theorem storeTaskResult_sequential_writes (pgFails : Bool) (st : StoreState) (id : String)
    (r : Response) :
    (storeTaskResult true pgFails st id r).2.taskResults = st.taskResults ∧
    (storeTaskResult true pgFails st id r).1 = .error "redis setex failed" ∧
    (storeTaskResult false false st id r).1 = .ok () ∧
    lookupKV id (storeTaskResult false false st id r).2.taskResults =
      some { agent_id := "unknown", tenant_id := "default", input := .obj []
             output := jsResultOrEmpty r.result, metadata := r.metadata } := by
  refine ⟨rfl, rfl, rfl, ?_⟩
  exact lookupKV_insertKV_self id _ st.taskResults

/-- The stored sequence numbers of one conversation, in row order: the
`sequence_number` column of the `conversation_history` rows of that
conversation. -/
def convSeqs (st : ConvStore) (cid : String) : List ℕ :=
  (st.history.filter (fun h => h.conversation_id = cid)).map (fun h => h.sequence_number)

/-- N successive `updateConversationHistory` calls on one conversation. -/
def appendRun (st : ConvStore) (cid : String) (tasks : List Task) : ConvStore :=
  tasks.foldl (fun s t => updateConversationHistory s cid t) st

theorem maxSeq_eq_foldr (st : ConvStore) (cid : String) :
    maxSeq st.history cid = (convSeqs st cid).foldr max 0 := by
  simp [maxSeq, convSeqs, List.foldr_map]

theorem convSeqs_update (st : ConvStore) (cid : String) (t : Task) :
    convSeqs (updateConversationHistory st cid t) cid =
      convSeqs st cid ++ [maxSeq st.history cid + 1] := by
  simp [convSeqs, updateConversationHistory, List.filter_append]

theorem foldr_max_range'_succ (n : ℕ) : ∀ s : ℕ, (List.range' s (n + 1)).foldr max 0 = s + n := by
  induction n with
  | zero => intro s; simp [List.range'_succ]
  | succ m ih =>
    intro s
    rw [List.range'_succ, List.foldr_cons, ih (s + 1)]
    omega

theorem appendRun_invariant (cid : String) (tasks : List Task) :
    ∀ (st : ConvStore) (k : ℕ), convSeqs st cid = List.range' 1 k →
      convSeqs (appendRun st cid tasks) cid = List.range' 1 (k + tasks.length) := by
  induction tasks with
  | nil => intro st k h; simpa [appendRun] using h
  | cons t ts ih =>
    intro st k h
    have hmax : maxSeq st.history cid = k := by
      rw [maxSeq_eq_foldr, h]
      cases k with
      | zero => rfl
      | succ m => rw [foldr_max_range'_succ m 1]; omega
    have hupd : convSeqs (updateConversationHistory st cid t) cid = List.range' 1 (k + 1) := by
      rw [convSeqs_update, h, hmax]
      have := List.range'_append_1 1 k 1
      simp only [List.range'_succ, List.range'] at this
      rw [show 1 + k = k + 1 from by omega] at this
      simpa using this
    have := ih (updateConversationHistory st cid t) (k + 1) hupd
    rw [show appendRun st cid (t :: ts) = appendRun (updateConversationHistory st cid t) cid ts
      from rfl]
    rw [this]
    congr 1
    simp [List.length_cons]
    omega

/-- C5: starting from a conversation with no history rows, N successive
`updateConversationHistory` appends store sequence numbers exactly
`[1, ..., N]` — strictly increasing, gapless from 1, no duplicates — since
each append writes max-plus-one. -/
theorem appendHistory_sequence_numbers (st0 : ConvStore) (cid : String) (tasks : List Task)
    (h0 : convSeqs st0 cid = []) :
    convSeqs (appendRun st0 cid tasks) cid = List.range' 1 tasks.length := by
  have h := appendRun_invariant cid tasks st0 0 (by simpa using h0)
  simpa using h

/-- The empty conversation store. -/
def emptyConvStore : ConvStore := { conversations := [], history := [] }

/-- Witness for C5 at a concrete input: three appends to the empty store
yield sequence numbers `[1, 2, 3]`. -/
theorem appendHistory_sequence_numbers_witness :
    convSeqs (appendRun emptyConvStore "c1" [simpleTask, ghostTask, invalidTextTask]) "c1" =
      [1, 2, 3] := by
  have h := appendHistory_sequence_numbers emptyConvStore "c1"
    [simpleTask, ghostTask, invalidTextTask] rfl
  rw [h]
  rfl

/-- C6: every record returned by `searchSimilarEmbeddings` belongs to the
querying tenant, at most `limit` records are returned, and they are ordered
by ascending distance to the query vector. -/
theorem nearestEmbeddings_tenant_isolation (pgFails : Bool) (table : List EmbeddingRow)
    (q : List ℚ) (tid : String) (lim : ℕ) :
    (∀ r ∈ searchSimilarEmbeddings pgFails table q tid lim, r.tenant_id = tid) ∧
    (searchSimilarEmbeddings pgFails table q tid lim).length ≤ lim ∧
    List.Pairwise (distRel q) (searchSimilarEmbeddings pgFails table q tid lim) := by
  haveI : IsTotal EmbeddingRow (distRel q) := ⟨fun a b => le_total _ _⟩
  haveI : IsTrans EmbeddingRow (distRel q) := ⟨fun a b c h1 h2 => le_trans h1 h2⟩
  cases pgFails with
  | true => simp [searchSimilarEmbeddings]
  | false =>
    have hrw : searchSimilarEmbeddings false table q tid lim =
        (List.insertionSort (distRel q) (table.filter (fun r => r.tenant_id = tid))).take lim :=
      rfl
    refine ⟨?_, ?_, ?_⟩
    · intro r hr
      rw [hrw] at hr
      have h1 : r ∈ List.insertionSort (distRel q) (table.filter (fun r => r.tenant_id = tid)) :=
        (List.take_sublist lim _).subset hr
      have h2 : r ∈ table.filter (fun r => r.tenant_id = tid) :=
        (List.perm_insertionSort (distRel q) _).subset h1
      simpa using (List.mem_filter.mp h2).2
    · rw [hrw]
      exact List.length_take_le lim _
    · rw [hrw]
      exact (List.sorted_insertionSort (distRel q) _).sublist (List.take_sublist lim _)

/-- Embedding rows of three tenants for the search witness. -/
def wRowA : EmbeddingRow := { id := "e1", content := "alpha", vector := [0], metadata := .null, tenant_id := "tenantA" }

/-- Second witness row, owned by a different tenant. -/
def wRowB : EmbeddingRow := { id := "e2", content := "beta", vector := [3], metadata := .null, tenant_id := "tenantB" }

/-- Third witness row, same tenant as the first but a farther vector. -/
def wRowC : EmbeddingRow := { id := "e3", content := "gamma", vector := [1], metadata := .null, tenant_id := "tenantA" }

/-- The witness embeddings table. -/
def wTable : List EmbeddingRow := [wRowA, wRowB, wRowC]

/-- Witness for C6 at a concrete input: the tenantA query returns a list
containing the tenantA row, that row carries the querying tenant id, and
the result respects the limit. -/
theorem nearestEmbeddings_tenant_isolation_witness :
    wRowA ∈ searchSimilarEmbeddings false wTable [0] "tenantA" 2 ∧
    wRowA.tenant_id = "tenantA" ∧
    (searchSimilarEmbeddings false wTable [0] "tenantA" 2).length ≤ 2 := by
  have h := nearestEmbeddings_tenant_isolation false wTable [0] "tenantA" 2
  have hfil : wTable.filter (fun r => r.tenant_id = "tenantA") = [wRowA, wRowC] := rfl
  have hlen : (List.insertionSort (distRel [0])
      (wTable.filter (fun r => r.tenant_id = "tenantA"))).length = 2 := by
    rw [(List.perm_insertionSort (distRel [0]) _).length_eq, hfil]
    rfl
  have hmem : wRowA ∈ searchSimilarEmbeddings false wTable [0] "tenantA" 2 := by
    show wRowA ∈ (List.insertionSort (distRel [0])
      (wTable.filter (fun r => r.tenant_id = "tenantA"))).take 2
    rw [← hlen, List.take_length]
    refine (List.perm_insertionSort (distRel [0]) _).mem_iff.mpr ?_
    rw [hfil]
    exact List.mem_cons_self _ _
  exact ⟨hmem, h.1 wRowA hmem, h.2.1⟩

theorem sorted_cost_head_min (l : List LLMProvider) (c : LLMProvider) (t : List LLMProvider)
    (hsort : List.insertionSort costRel l = c :: t) :
    ∀ q ∈ l, c.costPerToken ≤ q.costPerToken := by
  intro q hq
  haveI : IsTotal LLMProvider costRel := ⟨fun a b => le_total _ _⟩
  haveI : IsTrans LLMProvider costRel := ⟨fun a b c h1 h2 => le_trans h1 h2⟩
  have hs := List.sorted_insertionSort costRel l
  rw [hsort] at hs
  have hmem : q ∈ c :: t := by
    rw [← hsort]
    exact (List.perm_insertionSort costRel l).symm.subset hq
  rcases List.mem_cons.mp hmem with h | h
  · subst h; exact le_refl _
  · exact List.rel_of_sorted_cons hs q h

/-- C7: under the `cost` strategy, when some ranked-and-available candidate
fits the budget the selection returns a within-budget candidate of minimum
unit cost; when none fits, it falls back to the first candidate instead of
failing. -/
theorem selectByCost_cost_bounded (provs : List LLMProvider) (budget : ℚ) :
    ((∃ p ∈ provs, p.costPerToken ≤ budget) →
      ∃ c, selectByCost provs budget = some c ∧ c ∈ provs ∧ c.costPerToken ≤ budget ∧
        ∀ q ∈ provs, q.costPerToken ≤ budget → c.costPerToken ≤ q.costPerToken) ∧
    ((∀ p ∈ provs, ¬ p.costPerToken ≤ budget) → selectByCost provs budget = provs.head?) := by
  constructor
  · rintro ⟨p, hp, hpb⟩
    have hpfl : p ∈ provs.filter (fun x => x.costPerToken ≤ budget) :=
      List.mem_filter.mpr ⟨hp, by simpa using hpb⟩
    cases hsort : List.insertionSort costRel (provs.filter (fun x => x.costPerToken ≤ budget)) with
    | nil =>
      exfalso
      have hnil : provs.filter (fun x => x.costPerToken ≤ budget) = [] :=
        List.nil_perm.mp (hsort ▸ List.perm_insertionSort costRel _)
      rw [hnil] at hpfl
      exact List.not_mem_nil p hpfl
    | cons c t =>
      have hcfl : c ∈ provs.filter (fun x => x.costPerToken ≤ budget) :=
        (List.perm_insertionSort costRel _).subset (hsort ▸ List.mem_cons_self c t)
      have hc := List.mem_filter.mp hcfl
      refine ⟨c, ?_, hc.1, by simpa using hc.2, ?_⟩
      · unfold selectByCost
        rw [hsort]
        rfl
      · intro q hq hqb
        exact sorted_cost_head_min _ c t hsort q
          (List.mem_filter.mpr ⟨hq, by simpa using hqb⟩)
  · intro hnone
    have hfl : provs.filter (fun x => x.costPerToken ≤ budget) = [] := by
      rw [List.filter_eq_nil_iff]
      intro p hp
      simpa using hnone p hp
    unfold selectByCost
    rw [hfl]
    rfl

/-- Witness for C7 at a concrete input: with `gpt4` (cost 0.03) and `local`
(cost 0.0001) both candidates and budget 0.5, a within-budget minimum-cost
candidate is returned. -/
theorem selectByCost_cost_bounded_witness :
    (∃ p ∈ [gpt4Provider, localProvider], p.costPerToken ≤ mkRat 5 10) ∧
    ∃ c, selectByCost [gpt4Provider, localProvider] (mkRat 5 10) = some c ∧
      c ∈ [gpt4Provider, localProvider] ∧ c.costPerToken ≤ mkRat 5 10 ∧
      ∀ q ∈ [gpt4Provider, localProvider], q.costPerToken ≤ mkRat 5 10 →
        c.costPerToken ≤ q.costPerToken := by
  have hex : ∃ p ∈ [gpt4Provider, localProvider], p.costPerToken ≤ mkRat 5 10 :=
    ⟨gpt4Provider, List.mem_cons_self _ _, by decide⟩
  exact ⟨hex, (selectByCost_cost_bounded [gpt4Provider, localProvider] (mkRat 5 10)).1 hex⟩

/-- The hybrid score as the claim spells it: weights first, the epsilon of
the source (0.001), and the budget term last. -/
def hybridScoreSpec (pol : Policy) (p : LLMProvider) : ℚ :=
  mkRat 4 10 * (1 / (p.costPerToken + mkRat 1 1000)) +
    mkRat 4 10 * (1 / (p.latencyMs + 1)) +
    mkRat 2 10 * (if p.costPerToken ≤ pol.cost_budget then 1 else mkRat 1 10)

theorem hybridScoreSpec_eq (pol : Policy) (p : LLMProvider) :
    hybridScoreSpec pol p = hybridScore pol p := by
  unfold hybridScoreSpec hybridScore
  ring

/-- The earliest maximum-score element of a candidate list: the element a
stable descending sort puts first. -/
def firstArgmax (score : LLMProvider → ℚ) : List LLMProvider → Option LLMProvider
  | [] => none
  | p :: ps =>
    match firstArgmax score ps with
    | none => some p
    | some m => if score p < score m then some m else some p

theorem firstArgmax_eq_none (score : LLMProvider → ℚ) (l : List LLMProvider) :
    firstArgmax score l = none ↔ l = [] := by
  cases l with
  | nil => simp [firstArgmax]
  | cons p ps =>
    simp only [firstArgmax]
    cases firstArgmax score ps with
    | none => simp
    | some m =>
      by_cases h : score p < score m <;> simp [h]

theorem insertionSort_hybrid_head (pol : Policy) :
    ∀ l : List LLMProvider,
      (List.insertionSort (hybridRel pol) l).head? = firstArgmax (hybridScore pol) l := by
  intro l
  induction l with
  | nil => rfl
  | cons p ps ih =>
    rw [List.insertionSort]
    cases hs : List.insertionSort (hybridRel pol) ps with
    | nil =>
      have hps : ps = [] := List.nil_perm.mp (hs ▸ List.perm_insertionSort (hybridRel pol) ps)
      subst hps
      rfl
    | cons m t =>
      rw [hs] at ih
      simp only [List.head?_cons] at ih
      rw [List.orderedInsert]
      by_cases h : hybridRel pol p m
      · rw [if_pos h]
        simp only [List.head?_cons, firstArgmax, ← ih]
        rw [if_neg (not_lt.mpr h)]
      · rw [if_neg h]
        simp only [List.head?_cons, firstArgmax, ← ih]
        rw [if_pos (lt_of_not_le h)]

theorem firstArgmax_spec (score : LLMProvider → ℚ) :
    ∀ (l : List LLMProvider) (m : LLMProvider), firstArgmax score l = some m →
      (∀ q ∈ l, score q ≤ score m) ∧
      ∃ pre post, l = pre ++ m :: post ∧ ∀ q ∈ pre, score q < score m := by
  intro l
  induction l with
  | nil => intro m hm; simp [firstArgmax] at hm
  | cons p ps ih =>
    intro m hm
    rw [firstArgmax] at hm
    cases hfa : firstArgmax score ps with
    | none =>
      have hps : ps = [] := (firstArgmax_eq_none score ps).mp hfa
      subst hps
      simp only [firstArgmax] at hm
      obtain rfl : p = m := by injection hm
      exact ⟨by simp, [], [], rfl, by simp⟩
    | some m0 =>
      rw [hfa] at hm
      have hm2 : (if score p < score m0 then some m0 else some p) = some m := hm
      obtain ⟨hmax0, pre0, post0, hsplit0, hpre0⟩ := ih m0 hfa
      by_cases h : score p < score m0
      · rw [if_pos h] at hm2
        obtain rfl : m0 = m := by injection hm2
        refine ⟨?_, p :: pre0, post0, by rw [hsplit0]; rfl, ?_⟩
        · intro q hq
          rcases List.mem_cons.mp hq with rfl | hq
          · exact le_of_lt h
          · exact hmax0 q hq
        · intro q hq
          rcases List.mem_cons.mp hq with rfl | hq
          · exact h
          · exact hpre0 q hq
      · rw [if_neg h] at hm2
        obtain rfl : p = m := by injection hm2
        refine ⟨?_, [], ps, rfl, by simp⟩
        intro q hq
        rcases List.mem_cons.mp hq with rfl | hq
        · exact le_refl _
        · exact le_trans (hmax0 q hq) (not_lt.mp h)

/-- C8: under the `hybrid` strategy the returned candidate maximizes the
hybrid score `0.4 * 1/(cost+eps) + 0.4 * 1/(latency+1) + 0.2 * (1 if
within budget else 0.1)` (with the source epsilon 0.001), and among
equal-score candidates the one appearing earliest in the ranked candidate
list is returned: everything strictly before the choice scores strictly
less. -/
theorem selectByHybrid_max_and_tiebreak (provs : List LLMProvider) (pol : Policy)
    (hne : provs ≠ []) :
    ∃ p, selectByHybrid provs pol = some p ∧
      (∀ q, hybridScoreSpec pol q = hybridScore pol q) ∧
      (∀ q ∈ provs, hybridScore pol q ≤ hybridScore pol p) ∧
      ∃ pre post, provs = pre ++ p :: post ∧
        ∀ q ∈ pre, hybridScore pol q < hybridScore pol p := by
  cases hfa : firstArgmax (hybridScore pol) provs with
  | none => exact absurd ((firstArgmax_eq_none _ _).mp hfa) hne
  | some m =>
    obtain ⟨hmax, pre, post, hsplit, hpre⟩ := firstArgmax_spec (hybridScore pol) provs m hfa
    refine ⟨m, ?_, fun q => hybridScoreSpec_eq pol q, hmax, pre, post, hsplit, hpre⟩
    unfold selectByHybrid
    rw [insertionSort_hybrid_head pol provs, hfa]

/-- A policy for the hybrid witness scenario. -/
def hybPol : Policy :=
  { llm_ranking := ["hybA", "hybB"], max_tokens := 100
    timeout_ms := some 5000, cost_budget := mkRat 5 10 }

/-- First of two providers with identical cost and latency (identical
hybrid scores). -/
def hybA : LLMProvider :=
  { name := "hybA", endpoint := "https://a.example", apiKey := "ka", models := ["m"]
    costPerToken := mkRat 1 100, latencyMs := 500, available := true }

/-- Second provider with the same cost and latency as the first. -/
def hybB : LLMProvider :=
  { name := "hybB", endpoint := "https://b.example", apiKey := "kb", models := ["m"]
    costPerToken := mkRat 1 100, latencyMs := 500, available := true }

/-- Witness for C8 at a concrete input: with two identically scored
candidates the earlier one (`hybA`) is returned, and it maximizes the
score. -/
theorem selectByHybrid_max_and_tiebreak_witness :
    selectByHybrid [hybA, hybB] hybPol = some hybA ∧
    ∃ p, selectByHybrid [hybA, hybB] hybPol = some p ∧
      ∀ q ∈ [hybA, hybB], hybridScore hybPol q ≤ hybridScore hybPol p := by
  have htie : hybridRel hybPol hybA hybB := le_refl _
  have hval : selectByHybrid [hybA, hybB] hybPol = some hybA := by
    show (List.insertionSort (hybridRel hybPol) [hybA, hybB]).head? = some hybA
    rw [show List.insertionSort (hybridRel hybPol) [hybA, hybB] =
        List.orderedInsert (hybridRel hybPol) hybA [hybB] from rfl]
    rw [List.orderedInsert, if_pos htie]
    rfl
  obtain ⟨p, hp, _, hmax, _⟩ :=
    selectByHybrid_max_and_tiebreak [hybA, hybB] hybPol (by simp)
  exact ⟨hval, p, hp, hmax⟩

end Luxor9
